import Mathlib

/-!
Shallow embedding of the ads_optimization repository's job orchestration and
report-fetch pipeline, together with proofs of the spec's claims about it.

The embedding follows the Python sources:
  * `src/agent/jobs/job_tracker.py`        (JobStatus, JobInfo, JobTracker)
  * `src/agent/api/amazon_ads_client.py`   (token cache, report poll loop)
  * `src/agent/jobs/fetch_reports.py`      (fetch_reports_async)
  * `src/agent/ui/api.py`                  (import_spreadsheet_async)
  * `src/agent/jobs/import_spreadsheet.py` (import_csv / import_excel)

Python machine details are modelled as follows: wall-clock instants and float
quantities are exact rationals (the comparisons in the claims involve only
addition and order, where floats and rationals agree on the small literals
used), dictionaries are association lists keyed by their Python key with
insertion order preserved, and exceptions are `Except` values.
-/

namespace AdsOpt

/-! ### Job tracker (src/agent/jobs/job_tracker.py) -/

/-- Status of async jobs (`JobStatus`, job_tracker.py lines 12-18). -/
inductive JobStatus
  | pending
  | in_progress
  | completed
  | failed
  | timeout
deriving DecidableEq, Repr

/-- Terminal statuses, as enumerated in `update_job` (job_tracker.py line 94). -/
def JobStatus.isTerminal : JobStatus → Bool
  | .completed => true
  | .failed => true
  | .timeout => true
  | _ => false

/-- Information about a running or completed job (`JobInfo`, job_tracker.py
lines 21-32).  `datetime` instants are modelled as rationals; `progress` is a
Python float modelled as a rational; `metadata` is a string-keyed dict. -/
structure JobInfo where
  job_id : String
  job_type : String
  status : JobStatus
  progress : ℚ := 0
  records_fetched : ℤ := 0
  errors : List String := []
  started_at : ℚ
  completed_at : Option ℚ := none
  metadata : List (String × String) := []
deriving DecidableEq, Repr

/-- The tracker's `_jobs` dict: a list of records in insertion order, keyed by
`job_id` (unique in any state reachable through the dict interface). -/
abbrev Registry := List JobInfo

/-- Dictionary lookup `self._jobs.get(job_id)` (job_tracker.py lines 73-76). -/
def lookupJob (reg : Registry) (jobId : String) : Option JobInfo :=
  reg.find? (fun j => j.job_id == jobId)

/-- Dictionary assignment `self._jobs[job_id] = job`: replaces the value in
place when the key exists, appends otherwise. -/
def dictInsert (reg : Registry) (jobId : String) (job : JobInfo) : Registry :=
  if (reg.find? (fun j => j.job_id == jobId)).isSome then
    reg.map (fun j => if j.job_id == jobId then job else j)
  else
    reg ++ [job]

/-- Embeds `JobTracker.create_job` (job_tracker.py lines 56-71).  The Python
body builds a fresh `PENDING` record and stores it with a plain dict
assignment; there is no existence check, so an existing record under the same
id is replaced.  `now` stands for `datetime.now()`. -/
def createJob (reg : Registry) (jobId jobType : String)
    (metadata : List (String × String)) (now : ℚ) : JobInfo × Registry :=
  let job : JobInfo :=
    { job_id := jobId, job_type := jobType, status := .pending,
      progress := 0, records_fetched := 0, errors := [],
      started_at := now, completed_at := none, metadata := metadata }
  (job, dictInsert reg jobId job)

/-- Progress clamp `max(0.0, min(100.0, progress))` (job_tracker.py line 98). -/
def clampProgress (p : ℚ) : ℚ := max 0 (min 100 p)

/-- Field updates applied to a found job by `update_job` (job_tracker.py
lines 92-104): an optional status (terminal statuses also stamp
`completed_at := now`), an optional clamped progress, an optional
records-fetched count, and an optional error appended to the error list. -/
def applyUpdate (job : JobInfo) (status : Option JobStatus) (progress : Option ℚ)
    (records_fetched : Option ℤ) (error : Option String) (now : ℚ) : JobInfo :=
  let job := match status with
    | none => job
    | some s =>
        { job with status := s,
                   completed_at := if s.isTerminal then some now else job.completed_at }
  let job := match progress with
    | none => job
    | some p => { job with progress := clampProgress p }
  let job := match records_fetched with
    | none => job
    | some r => { job with records_fetched := r }
  match error with
  | none => job
  | some e => { job with errors := job.errors ++ [e] }

/-- Embeds `JobTracker.update_job` (job_tracker.py lines 78-106): a lookup
returning `none` untouched when the id is unknown, otherwise the in-place
mutation of the stored record. -/
def updateJob (reg : Registry) (jobId : String) (status : Option JobStatus)
    (progress : Option ℚ) (records_fetched : Option ℤ) (error : Option String)
    (now : ℚ) : Option JobInfo × Registry :=
  match reg.find? (fun j => j.job_id == jobId) with
  | none => (none, reg)
  | some job =>
      let updated := applyUpdate job status progress records_fetched error now
      (some updated, reg.map (fun j => if j.job_id == jobId then updated else j))

/-- Sort used by `list_jobs` and `cleanup_old_jobs` (job_tracker.py lines
108-123): `sorted(..., key=lambda j: j.started_at, reverse=True)`, i.e. a
stable sort descending by start time.  Rendered with insertion sort, which is
also stable and therefore produces the same list as Python's stable sort. -/
def sortJobs (jobs : List JobInfo) : List JobInfo :=
  jobs.insertionSort (fun a b => b.started_at ≤ a.started_at)

instance : IsTotal JobInfo (fun a b => b.started_at ≤ a.started_at) :=
  ⟨fun a b => le_total b.started_at a.started_at⟩

instance : IsTrans JobInfo (fun a b => b.started_at ≤ a.started_at) :=
  ⟨fun _ _ _ hab hbc => le_trans hbc hab⟩

/-- Number of jobs in `reg` started strictly later than `j`.  Under distinct
start times, `j` is among the `n` most-recently-started jobs of `reg` exactly
when this count is below `n`. -/
def moreRecentCount (reg : Registry) (j : JobInfo) : ℕ :=
  reg.countP (fun k => j.started_at < k.started_at)

/-- Embeds `JobTracker.cleanup_old_jobs` (job_tracker.py lines 116-135):
keep the `keep_last_n` most recently started jobs; among the rest delete the
records whose status is `COMPLETED` or `FAILED`; return the updated dict and
the number deleted. -/
def cleanupOldJobs (reg : Registry) (keep_last_n : ℕ) : Registry × ℕ :=
  let jobs := sortJobs reg
  if jobs.length ≤ keep_last_n then (reg, 0)
  else
    let toRemove := jobs.drop keep_last_n
    let removedJobs := toRemove.filter
      (fun j => j.status == JobStatus.completed || j.status == JobStatus.failed)
    (reg.filter (fun j => !(removedJobs.any (fun r => r.job_id == j.job_id))),
     removedJobs.length)

/-! ### Report poll loop (src/agent/api/amazon_ads_client.py) -/

/-- Response of one `get_report_status` poll: `fetch_keyword_report` reads
`status_data.get("status")` and `status_data.get("location")`
(amazon_ads_client.py lines 255-262). -/
structure StatusResponse where
  status : Option String
  location : Option String
deriving DecidableEq, Repr

/-- Result of the polling section of `fetch_keyword_report`.  `timedOut i`
records the `TimeoutError` raised at the elapsed-time check reached after `i`
polls; `gotReport` carries the downloaded records; `noLocation` and
`remoteFailure` are the two `Exception` exits; `fuelExhausted` is the
artificial bound the embedding puts on the unbounded `while True` loop. -/
inductive PollResult (α : Type)
  | gotReport (records : α)
  | noLocation
  | remoteFailure
  | timedOut (polls : ℕ)
  | fuelExhausted
deriving DecidableEq, Repr

/-- Embeds the poll loop of `fetch_keyword_report` (amazon_ads_client.py
lines 246-278).  `resp i` is the remote answer to the `i`-th status poll and
`dur i` the wall-clock time that poll consumes; `pollInterval` is the
`asyncio.sleep` pause between polls (5.0 in the source); `elapsed` models
`time.time() - start_time` at the top of the loop.  The check
`elapsed > max_wait` precedes each poll; `SUCCESS` downloads (or fails for a
missing location), `FAILURE`/`FAILED` raises, and both the
`IN_PROGRESS`/`PENDING` branch and the unknown-status branch sleep and
continue. -/
def fetchPollLoop {α : Type} (maxWait pollInterval : ℚ) (resp : ℕ → StatusResponse)
    (dur : ℕ → ℚ) (download : String → α) :
    ℕ → ℕ → ℚ → PollResult α
  | 0, _, _ => .fuelExhausted
  | fuel + 1, i, elapsed =>
      if maxWait < elapsed then .timedOut i
      else
        let sd := resp i
        if sd.status == some "SUCCESS" then
          match sd.location with
          | some loc => .gotReport (download loc)
          | none => .noLocation
        else if sd.status == some "FAILURE" || sd.status == some "FAILED" then
          .remoteFailure
        else
          fetchPollLoop maxWait pollInterval resp dur download fuel (i + 1)
            (elapsed + dur i + pollInterval)

/-- Elapsed wall-clock time at the top of the loop after `k` completed
poll-and-sleep rounds. -/
def elapsedAt (dur : ℕ → ℚ) (pollInterval : ℚ) (k : ℕ) : ℚ :=
  ∑ j ∈ Finset.range k, (dur j + pollInterval)

/-- A status answer of the in-progress class: anything that is neither the
success status nor a failure-class status.  This covers `IN_PROGRESS`,
`PENDING`, a missing status field, and unknown statuses, all of which make
the loop sleep and poll again. -/
def InProgressClass (sd : StatusResponse) : Prop :=
  sd.status ≠ some "SUCCESS" ∧ sd.status ≠ some "FAILURE" ∧ sd.status ≠ some "FAILED"

/-! ### Token cache (src/agent/api/amazon_ads_client.py lines 48-86) -/

/-- Token cache held on the client: `self.access_token` (initially `None`)
and `self.token_expires_at` (initially 0), amazon_ads_client.py lines 48-49. -/
structure TokenState where
  access_token : Option String
  token_expires_at : ℚ
deriving DecidableEq, Repr

/-- Token endpoint answer as read by the code: `token_data["access_token"]`
and `token_data.get("expires_in", 3600)`. -/
structure TokenResponse where
  access_token : String
  expires_in : Option ℚ
deriving DecidableEq, Repr

/-- Python truthiness of `self.access_token`: `None` and the empty string
are falsy. -/
def pyTruthyToken : Option String → Bool
  | none => false
  | some s => !(s == "")

/-- Embeds `_get_access_token` (amazon_ads_client.py lines 54-86).  `now` is
`time.time()`; `resp` is the token endpoint's answer, consulted only when a
refresh request is actually issued.  Returns the token handed to the caller,
the new cache state, and the number of network calls made. -/
def getAccessToken (st : TokenState) (now : ℚ) (resp : TokenResponse) :
    String × TokenState × ℕ :=
  if pyTruthyToken st.access_token ∧ now < st.token_expires_at - 300 then
    (st.access_token.getD "", st, 0)
  else
    let expiresIn := resp.expires_in.getD 3600
    (resp.access_token,
     { access_token := some resp.access_token,
       token_expires_at := now + expiresIn },
     1)

/-! ### Pipeline runs (src/agent/jobs/fetch_reports.py, src/agent/ui/api.py) -/

/-- A Python exception as dispatched by the handlers of the two pipeline
functions.  On the Python (3.11+) running this repository,
`asyncio.TimeoutError` is the builtin `TimeoutError`, so the first handler of
`fetch_reports_async` catches exactly the timeout raised by
`fetch_keyword_report`. -/
inductive PyExc
  | timeoutError (msg : String)
  | otherExc (typeName msg : String)
deriving DecidableEq, Repr

/-- Message recorded by the generic handler of `import_spreadsheet_async`
(`str(exc)`, ui/api.py line 108). -/
def PyExc.message : PyExc → String
  | .timeoutError m => m
  | .otherExc _ m => m

/-- Error entry `f"{type(exc).__name__}: {str(exc)}"` recorded by the
generic handler of `fetch_reports_async` (fetch_reports.py line 158). -/
def PyExc.typedMessage : PyExc → String
  | .timeoutError m => "TimeoutError" ++ ": " ++ m
  | .otherExc n m => n ++ ": " ++ m

/-- Embeds `fetch_reports_async` (fetch_reports.py lines 64-164).  The
outcome of `client.fetch_keyword_report` is passed in as `outcome` (the
downloaded records, or the exception that call raised); `parseRec` stands for
`parse_amazon_record_to_performance` (`none` when that call raises, in which
case the record is logged and dropped); `persist` for
`dao.upsert_performance`, which the code only invokes on a nonempty batch.
`now` stands for the `datetime.now()` stamps of the update calls. -/
def fetchReportsAsync {α β : Type} (jobId : String)
    (outcome : Except PyExc (List α)) (parseRec : α → Option β)
    (persist : List β → ℤ) (reg : Registry) (now : ℚ) : Registry :=
  let reg1 := (updateJob reg jobId (some .in_progress) (some 0) none none now).2
  let reg2 := (updateJob reg1 jobId none (some 10) none none now).2
  match outcome with
  | .error e =>
      match e with
      | .timeoutError _ =>
          (updateJob reg2 jobId (some .timeout) none none
            (some "Amazon Ads API report timed out") now).2
      | .otherExc n m =>
          (updateJob reg2 jobId (some .failed) none none
            (some (PyExc.typedMessage (.otherExc n m))) now).2
  | .ok records =>
      let reg3 := (updateJob reg2 jobId none (some 60)
        (some (records.length : ℤ)) none now).2
      let performanceRecords := records.filterMap parseRec
      let reg4 := (updateJob reg3 jobId none (some 80) none none now).2
      let _rowsAdded : ℤ :=
        if performanceRecords.isEmpty then 0 else persist performanceRecords
      (updateJob reg4 jobId (some .completed) (some 100)
        (some (records.length : ℤ)) none now).2

/-- Dict assignment `d[k] = v` on a string-keyed metadata dict. -/
def metaSet (md : List (String × String)) (k v : String) : List (String × String) :=
  if md.any (fun p => p.1 == k) then
    md.map (fun p => if p.1 == k then (k, v) else p)
  else md ++ [(k, v)]

/-- Embeds `import_spreadsheet_async` (ui/api.py lines 40-109).  `parsed` is
the outcome of the suffix dispatch plus `import_csv` / `import_excel` (the
`ValueError` for an unsupported suffix and any parser exception arrive as
`Except.error`); `persist` stands for `dao.upsert_performance`.  When records
exist, the looked-up job's metadata dict is mutated in place with the row
counters before the final update — `if job and job.metadata` skips this for
an empty metadata dict. -/
def importSpreadsheetAsync {β : Type} (jobId : String)
    (parsed : Except PyExc (List β)) (persist : List β → ℤ)
    (reg : Registry) (now : ℚ) : Registry :=
  let reg1 := (updateJob reg jobId (some .in_progress) (some 10) none none now).2
  match parsed with
  | .error e =>
      (updateJob reg1 jobId (some .failed) none none (some e.message) now).2
  | .ok records =>
      let reg2 := (updateJob reg1 jobId none (some 50) none none now).2
      if records.isEmpty then
        (updateJob reg2 jobId (some .completed) (some 100) none
          (some "No valid records found in file") now).2
      else
        let persisted := persist records
        let reg3 := reg2.map (fun j =>
          if j.job_id == jobId && !j.metadata.isEmpty then
            { j with metadata :=
                (metaSet (metaSet (metaSet j.metadata
                    "rows_processed" (toString records.length))
                  "rows_added" (toString persisted))
                  "rows_skipped" (toString ((records.length : ℤ) - persisted))) }
          else j)
        (updateJob reg3 jobId (some .completed) (some 100) (some persisted)
          none now).2

/-! ### Spreadsheet row parsing (src/agent/jobs/import_spreadsheet.py) -/

/-- A spreadsheet cell value as the row loops see it: Python `None` (missing
dict key or empty Excel cell), a string (every CSV value), or a number
(Excel numeric cells). -/
inductive Cell
  | pyNone
  | str (s : String)
  | num (q : ℚ)
deriving DecidableEq, Repr

/-- Python truthiness of a cell value: `None`, `""` and `0` are falsy. -/
def Cell.truthy : Cell → Bool
  | .pyNone => false
  | .str s => !(s == "")
  | .num q => !(q == 0)

/-- Test `value in (None, "", "null", "NULL", "--")` opening `_parse_float`
and `_parse_int` (import_spreadsheet.py lines 36 and 49). -/
def Cell.nullLike : Cell → Bool
  | .pyNone => true
  | .str s => s == "" || s == "null" || s == "NULL" || s == "--"
  | .num _ => false

/-- Python `str()` of a cell, as used for the `state` check and the keyword
id (`str(None)` is `"None"`; the numeric rendering never matches the strings
it is compared against). -/
def Cell.pyStr : Cell → String
  | .pyNone => "None"
  | .str s => s
  | .num q => toString q

/-- Python `str.lower()` (the headers and states handled are ASCII). -/
def pyLower (s : String) : String := ⟨s.data.map Char.toLower⟩

/-- Python `str.strip()`: drop leading and trailing whitespace. -/
def pyStrip (s : String) : String :=
  ⟨((s.data.dropWhile Char.isWhitespace).reverse.dropWhile Char.isWhitespace).reverse⟩

/-- Python `str.replace(c, "")` for a single-character pattern. -/
def removeChar (ch : Char) (s : String) : String :=
  ⟨s.data.filter (fun c => c ≠ ch)⟩

/-- Left-to-right scan behind `str.replace("USD", "")`. -/
def removeUSDChars : List Char → List Char
  | 'U' :: 'S' :: 'D' :: rest => removeUSDChars rest
  | c :: rest => c :: removeUSDChars rest
  | [] => []

/-- Python `str.replace("USD", "")`. -/
def removeUSD (s : String) : String := ⟨removeUSDChars s.data⟩

/-- Truncation toward zero performed by Python `int()` on a float. -/
def pyIntTrunc (q : ℚ) : ℤ := if 0 ≤ q then ⌊q⌋ else ⌈q⌉

/-- Embeds `_parse_float` (import_spreadsheet.py lines 34-44): null-likes
map to 0; strings are stripped of currency formatting
(`.strip().replace("$", "").replace("USD", "").replace(",", "").strip()`)
and handed to `float()`; a failed parse yields 0.  `pyFloat?` stands for
Python's `float()` string parser, `none` where `float()` raises. -/
def parseFloatPy (pyFloat? : String → Option ℚ) (c : Cell) : ℚ :=
  if c.nullLike then 0
  else
    match c with
    | .pyNone => 0
    | .str s =>
        (pyFloat? (pyStrip (removeChar ','
          (removeUSD (removeChar '$' (pyStrip s)))))).getD 0
    | .num q => q

/-- Embeds `_parse_int` (import_spreadsheet.py lines 47-57): null-likes map
to 0; strings lose commas (`.strip().replace(",", "")`); then
`int(float(value))`, with 0 on a failed parse. -/
def parseIntPy (pyFloat? : String → Option ℚ) (c : Cell) : ℤ :=
  if c.nullLike then 0
  else
    let v : Option ℚ :=
      match c with
      | .pyNone => none
      | .str s => pyFloat? (removeChar ',' (pyStrip s))
      | .num q => some q
    match v with
    | some q => pyIntTrunc q
    | none => 0

/-- A parsed row: the dict `zip(headers, values)` with normalized headers. -/
abbrev Row := List (String × Cell)

/-- Python `row.get(k)`: `None` when the key is missing. -/
def rowGet (row : Row) (k : String) : Cell :=
  match row.find? (fun p => p.1 == k) with
  | some p => p.2
  | none => .pyNone

/-- Python `row.get(k, default)`. -/
def rowGetD (row : Row) (k : String) (dflt : Cell) : Cell :=
  match row.find? (fun p => p.1 == k) with
  | some p => p.2
  | none => dflt

/-- Python `a or b` on cell values (truthiness chain). -/
def cellOr (a b : Cell) : Cell := if a.truthy then a else b

/-- Header normalization of `import_csv` (line 86):
`name.lower().strip() if name else ""` over `reader.fieldnames`. -/
def normalizeCsvHeader (h : String) : String :=
  if h == "" then "" else pyStrip (pyLower h)

/-- Header normalization of `import_excel` (line 181):
`str(cell.value).lower().strip() if cell.value else ""` over the first
sheet row. -/
def normalizeExcelHeader (c : Cell) : String :=
  if c.truthy then pyStrip (pyLower c.pyStr) else ""

/-- Amazon-export format detection (import_spreadsheet.py lines 89-95 and
184-190): a `keyword` and a `match type` column and no keyword-id column. -/
def isAmazonFormat (headers : List String) : Bool :=
  (headers.contains "keyword" && headers.contains "match type")
    && !(headers.contains "keyword_id" || headers.contains "keywordid")

/-- Keyword performance record produced by both import paths
(`KeywordPerformance`, src/agent/data/schemas.py lines 14-30); dates are
abstract day numbers. -/
structure KeywordPerformance where
  keyword_id : String
  date : ℤ
  impressions : ℤ
  clicks : ℤ
  spend : ℚ
  sales : ℚ
  orders : ℤ
deriving DecidableEq, Repr

/-- Metrics extracted by both row loops (import_spreadsheet.py lines 131-136
and 229-234), including the truthiness chains over the column aliases. -/
structure RowMetrics where
  impressions : ℤ
  clicks : ℤ
  spend : ℚ
  sales : ℚ
  orders : ℤ
deriving DecidableEq, Repr

/-- Computes the five metrics of a row. -/
def rowMetrics (pyFloat? : String → Option ℚ) (row : Row) : RowMetrics :=
  { impressions := parseIntPy pyFloat? (rowGetD row "impressions" (.num 0)),
    clicks := parseIntPy pyFloat? (rowGetD row "clicks" (.num 0)),
    spend := parseFloatPy pyFloat? (cellOr (rowGet row "spend")
      (cellOr (rowGet row "cost") (rowGetD row "spend(usd)" (.num 0)))),
    sales := parseFloatPy pyFloat? (cellOr (rowGet row "sales")
      (rowGetD row "sales(usd)" (.num 0))),
    orders := parseIntPy pyFloat? (cellOr (rowGet row "orders")
      (rowGetD row "conversions" (.num 0))) }

/-- Identity step of the CSV loop (import_spreadsheet.py lines 99-129):
computes the keyword id and record date, or `none` when the row is skipped —
missing keyword/match-type or keyword-id/date, archived or paused state, an
unparseable date, or the `AttributeError` that `.strip()` raises on a
non-string cell in the Amazon branch (caught by the per-row handler).
`genId` stands for the md5-based `_generate_keyword_id`, `parseDate?` for
`_parse_date` with raising modelled as `none`, and `today` for
`date.today()`. -/
def csvRowIdentity (genId : String → String → String)
    (parseDate? : Cell → Option ℤ) (today : ℤ) (amazonFmt : Bool)
    (row : Row) : Option (String × ℤ) :=
  if amazonFmt then
    match rowGetD row "keyword" (.str ""), rowGetD row "match type" (.str "") with
    | .str kw, .str mt =>
        let keyword := pyStrip kw
        let matchType := pyStrip mt
        if keyword == "" || matchType == "" then none
        else
          let state := pyLower (rowGetD row "state" (.str "")).pyStr
          if state == "archived" || state == "paused" then none
          else some (genId keyword matchType, today)
    | _, _ => none
  else
    let keywordIdCell := cellOr (rowGet row "keyword_id") (rowGet row "keywordid")
    let dateCell := rowGet row "date"
    if !keywordIdCell.truthy || !dateCell.truthy then none
    else
      match parseDate? dateCell with
      | some d => some (keywordIdCell.pyStr, d)
      | none => none

/-- Identity step of the Excel loop (import_spreadsheet.py lines 197-227);
identical to the CSV one except that the Amazon branch goes through `str()`
before `.strip()`, so a non-string cell cannot raise there. -/
def excelRowIdentity (genId : String → String → String)
    (parseDate? : Cell → Option ℤ) (today : ℤ) (amazonFmt : Bool)
    (row : Row) : Option (String × ℤ) :=
  if amazonFmt then
    let keyword := pyStrip (rowGetD row "keyword" (.str "")).pyStr
    let matchType := pyStrip (rowGetD row "match type" (.str "")).pyStr
    if keyword == "" || matchType == "" then none
    else
      let state := pyLower (rowGetD row "state" (.str "")).pyStr
      if state == "archived" || state == "paused" then none
      else some (genId keyword matchType, today)
  else
    let keywordIdCell := cellOr (rowGet row "keyword_id") (rowGet row "keywordid")
    let dateCell := rowGet row "date"
    if !keywordIdCell.truthy || !dateCell.truthy then none
    else
      match parseDate? dateCell with
      | some d => some (keywordIdCell.pyStr, d)
      | none => none

/-- Zero-activity test of import_spreadsheet.py lines 138-140 and 236-238:
`impressions == 0 and clicks == 0 and spend == 0 and sales == 0` (orders are
not consulted). -/
def zeroActivity (pyFloat? : String → Option ℚ) (row : Row) : Bool :=
  let m := rowMetrics pyFloat? row
  m.impressions == 0 && m.clicks == 0 && m.spend == 0 && m.sales == 0

/-- One iteration of the `import_csv` row loop (lines 97-157): `none` when
the row is skipped, including by the zero-activity check of lines 138-140. -/
def importCsvRow (genId : String → String → String)
    (parseDate? : Cell → Option ℤ) (today : ℤ)
    (pyFloat? : String → Option ℚ) (amazonFmt : Bool) (row : Row) :
    Option KeywordPerformance :=
  match csvRowIdentity genId parseDate? today amazonFmt row with
  | none => none
  | some (kid, d) =>
      if zeroActivity pyFloat? row then none
      else
        let m := rowMetrics pyFloat? row
        some { keyword_id := kid, date := d, impressions := m.impressions,
               clicks := m.clicks, spend := m.spend, sales := m.sales,
               orders := m.orders }

/-- One iteration of the `import_excel` row loop (lines 192-255), with the
same zero-activity check on lines 236-238. -/
def importExcelRow (genId : String → String → String)
    (parseDate? : Cell → Option ℤ) (today : ℤ)
    (pyFloat? : String → Option ℚ) (amazonFmt : Bool) (row : Row) :
    Option KeywordPerformance :=
  match excelRowIdentity genId parseDate? today amazonFmt row with
  | none => none
  | some (kid, d) =>
      if zeroActivity pyFloat? row then none
      else
        let m := rowMetrics pyFloat? row
        some { keyword_id := kid, date := d, impressions := m.impressions,
               clicks := m.clicks, spend := m.spend, sales := m.sales,
               orders := m.orders }

/-- Embeds `import_csv` (import_spreadsheet.py lines 71-159): normalize the
header names, detect the format, and run the row loop, collecting the rows
that are not skipped. -/
def importCsv (genId : String → String → String) (parseDate? : Cell → Option ℤ)
    (today : ℤ) (pyFloat? : String → Option ℚ) (headers : List String)
    (rows : List (List Cell)) : List KeywordPerformance :=
  let hs := headers.map normalizeCsvHeader
  let fmt := isAmazonFormat hs
  rows.filterMap (fun cells =>
    importCsvRow genId parseDate? today pyFloat? fmt (hs.zip cells))

/-- Embeds `import_excel` (import_spreadsheet.py lines 162-258): headers come
from the first sheet row through `str(...)`; each data row is zipped with
them (`dict(zip(headers, row))`). -/
def importExcel (genId : String → String → String) (parseDate? : Cell → Option ℤ)
    (today : ℤ) (pyFloat? : String → Option ℚ) (headerCells : List Cell)
    (rows : List (List Cell)) : List KeywordPerformance :=
  let hs := headerCells.map normalizeExcelHeader
  let fmt := isAmazonFormat hs
  rows.filterMap (fun cells =>
    importExcelRow genId parseDate? today pyFloat? fmt (hs.zip cells))

/-- Three-job sample registry with distinct ids and start times. -/
def sampleRegistry3 : Registry :=
  [{ job_id := "a", job_type := "fetch", status := .completed, started_at := 1 },
   { job_id := "b", job_type := "fetch", status := .pending, started_at := 2 },
   { job_id := "c", job_type := "fetch", status := .completed, started_at := 3 }]

/-- Five-job registry (three completed, two pending, distinct start times)
where the three completed jobs are the three oldest. -/
def fiveJobsOldCompleted : Registry :=
  [{ job_id := "c1", job_type := "fetch", status := .completed, started_at := 1 },
   { job_id := "c2", job_type := "fetch", status := .completed, started_at := 2 },
   { job_id := "c3", job_type := "fetch", status := .completed, started_at := 3 },
   { job_id := "p1", job_type := "fetch", status := .pending, started_at := 4 },
   { job_id := "p2", job_type := "fetch", status := .pending, started_at := 5 }]

/-- Five-job registry (three completed, two pending, distinct start times)
where the two most-recently-started jobs are completed. -/
def fiveJobsRecentCompleted : Registry :=
  [{ job_id := "p1", job_type := "fetch", status := .pending, started_at := 1 },
   { job_id := "p2", job_type := "fetch", status := .pending, started_at := 2 },
   { job_id := "c1", job_type := "fetch", status := .completed, started_at := 3 },
   { job_id := "c2", job_type := "fetch", status := .completed, started_at := 4 },
   { job_id := "c3", job_type := "fetch", status := .completed, started_at := 5 }]

/-! ### Basic lemmas about the registry operations -/

theorem applyUpdate_job_id (job : JobInfo) (s : Option JobStatus) (p : Option ℚ)
    (r : Option ℤ) (e : Option String) (now : ℚ) :
    (applyUpdate job s p r e now).job_id = job.job_id := by
  cases s <;> cases p <;> cases r <;> cases e <;> simp [applyUpdate]

theorem applyUpdate_status (job : JobInfo) (s : JobStatus) (p : Option ℚ)
    (r : Option ℤ) (e : Option String) (now : ℚ) :
    (applyUpdate job (some s) p r e now).status = s := by
  cases p <;> cases r <;> cases e <;> simp [applyUpdate]

theorem applyUpdate_progress (job : JobInfo) (s : Option JobStatus) (p : ℚ)
    (r : Option ℤ) (e : Option String) (now : ℚ) :
    (applyUpdate job s (some p) r e now).progress = clampProgress p := by
  cases s <;> cases r <;> cases e <;> simp [applyUpdate]

theorem applyUpdate_records_none (job : JobInfo) (s : Option JobStatus) (p : Option ℚ)
    (e : Option String) (now : ℚ) :
    (applyUpdate job s p none e now).records_fetched = job.records_fetched := by
  cases s <;> cases p <;> cases e <;> simp [applyUpdate]

theorem applyUpdate_records_some (job : JobInfo) (s : Option JobStatus) (p : Option ℚ)
    (r : ℤ) (e : Option String) (now : ℚ) :
    (applyUpdate job s p (some r) e now).records_fetched = r := by
  cases s <;> cases p <;> cases e <;> simp [applyUpdate]

theorem applyUpdate_errors_some (job : JobInfo) (s : Option JobStatus) (p : Option ℚ)
    (r : Option ℤ) (e : String) (now : ℚ) :
    (applyUpdate job s p r (some e) now).errors = job.errors ++ [e] := by
  cases s <;> cases p <;> cases r <;> simp [applyUpdate]

theorem find?_map_replace (reg : Registry) (jobId : String) (job : JobInfo)
    (hj : job.job_id = jobId) :
    (reg.map (fun j => if j.job_id == jobId then job else j)).find?
        (fun j => j.job_id == jobId) =
      if (reg.find? (fun j => j.job_id == jobId)).isSome then some job else none := by
  induction reg with
  | nil => simp
  | cons a tl ih =>
      by_cases h : a.job_id = jobId
      · have hb : (a.job_id == jobId) = true := by simp [h]
        have hjb : (job.job_id == jobId) = true := by simp [hj]
        have e1 : List.find? (fun j => j.job_id == jobId)
            (job :: tl.map (fun j => if j.job_id == jobId then job else j))
            = some job := List.find?_cons_of_pos _ hjb
        have e2 : List.find? (fun j => j.job_id == jobId) (a :: tl) = some a :=
          List.find?_cons_of_pos _ hb
        rw [List.map_cons, if_pos hb, e1, e2]
        simp
      · have hb : ¬((a.job_id == jobId) = true) := by simp [h]
        have e1 : List.find? (fun j => j.job_id == jobId)
            (a :: tl.map (fun j => if j.job_id == jobId then job else j))
            = List.find? (fun j => j.job_id == jobId)
                (tl.map (fun j => if j.job_id == jobId then job else j)) :=
          List.find?_cons_of_neg _ hb
        have e2 : List.find? (fun j => j.job_id == jobId) (a :: tl)
            = List.find? (fun j => j.job_id == jobId) tl :=
          List.find?_cons_of_neg _ hb
        rw [List.map_cons, if_neg hb, e1, e2]
        exact ih

theorem lookupJob_sound {reg : Registry} {jobId : String} {job : JobInfo}
    (h : lookupJob reg jobId = some job) : job.job_id = jobId := by
  have := List.find?_some h
  simpa using this

/-- Unfolds `updateJob` in the found case. -/
theorem updateJob_found {reg : Registry} {jobId : String} {job : JobInfo}
    (s : Option JobStatus) (p : Option ℚ) (r : Option ℤ) (e : Option String) (now : ℚ)
    (h : lookupJob reg jobId = some job) :
    updateJob reg jobId s p r e now =
      (some (applyUpdate job s p r e now),
       reg.map (fun j => if j.job_id == jobId then applyUpdate job s p r e now else j)) := by
  unfold updateJob
  unfold lookupJob at h
  rw [h]

/-- After a successful update, the stored record under `jobId` is exactly the
updated one. -/
theorem lookupJob_after_update {reg : Registry} {jobId : String} {job : JobInfo}
    (s : Option JobStatus) (p : Option ℚ) (r : Option ℤ) (e : Option String) (now : ℚ)
    (h : lookupJob reg jobId = some job) :
    lookupJob (updateJob reg jobId s p r e now).2 jobId
      = some (applyUpdate job s p r e now) := by
  rw [updateJob_found s p r e now h]
  unfold lookupJob
  rw [find?_map_replace reg jobId _ (by rw [applyUpdate_job_id]; exact lookupJob_sound h)]
  unfold lookupJob at h
  simp [h]

/-- A dict assignment under key `jobId` makes the stored value retrievable. -/
theorem lookupJob_dictInsert (reg : Registry) (jobId : String) (job : JobInfo)
    (hj : job.job_id = jobId) :
    lookupJob (dictInsert reg jobId job) jobId = some job := by
  unfold dictInsert lookupJob
  by_cases h : (reg.find? (fun j => j.job_id == jobId)).isSome
  · rw [if_pos h, find?_map_replace reg jobId job hj, if_pos h]
  · rw [if_neg h, List.find?_append]
    rw [Option.not_isSome_iff_eq_none] at h
    rw [h]
    simp [List.find?_cons, hj]

/-- The fresh record installed by `createJob` is found under its id. -/
theorem lookupJob_after_create (reg : Registry) (jobId jobType : String)
    (md : List (String × String)) (now : ℚ) :
    lookupJob (createJob reg jobId jobType md now).2 jobId
      = some (createJob reg jobId jobType md now).1 :=
  lookupJob_dictInsert reg jobId _ rfl

/-! ### Claim C1 -/

/-- Counterexample to C1 (as stated): a registry holding a completed record
for `job-1`; `create_job` with the same id does not fail, and the stored
record afterwards is the fresh pending one, not the pre-existing record. -/
theorem create_duplicate_counterexample :
    let j0 : JobInfo := { job_id := "job-1", job_type := "fetch",
                          status := .completed, progress := 100,
                          records_fetched := 7, errors := [], started_at := 0,
                          completed_at := some 1, metadata := [] }
    lookupJob (createJob [j0] "job-1" "import" [] 2).2 "job-1"
        = some (createJob [j0] "job-1" "import" [] 2).1 ∧
      (createJob [j0] "job-1" "import" [] 2).1.status = JobStatus.pending ∧
      lookupJob (createJob [j0] "job-1" "import" [] 2).2 "job-1" ≠ some j0 := by
  decide

/-- C1 (amended): `create_job` on an id that already exists in the registry
does not fail and does not preserve the pre-existing record: it silently
replaces it with a fresh `pending` record built from the new arguments. -/
theorem createJob_overwrites_existing (reg : Registry) (jobId jobType : String)
    (md : List (String × String)) (now : ℚ) (j0 : JobInfo)
    (h : lookupJob reg jobId = some j0) :
    lookupJob (createJob reg jobId jobType md now).2 jobId
        = some (createJob reg jobId jobType md now).1 ∧
      (createJob reg jobId jobType md now).1.status = JobStatus.pending := by
  exact ⟨lookupJob_after_create reg jobId jobType md now, rfl⟩

/-- Witness for `createJob_overwrites_existing` at a concrete registry. -/
theorem createJob_overwrites_existing_witness :
    lookupJob (createJob [{ job_id := "w", job_type := "fetch", status := .completed, started_at := 0 }] "w" "import" [] 3).2 "w"
        = some (createJob [{ job_id := "w", job_type := "fetch", status := .completed, started_at := 0 }] "w" "import" [] 3).1 ∧
      (createJob [{ job_id := "w", job_type := "fetch", status := .completed, started_at := 0 }] "w" "import" [] 3).1.status
        = JobStatus.pending :=
  createJob_overwrites_existing _ "w" "import" [] 3
    { job_id := "w", job_type := "fetch", status := .completed, started_at := 0 }
    (by decide)

/-! ### Claim C2 -/

/-- Counterexample to C2 (as stated): create a job, drive it to the terminal
`completed` status, then update with `in_progress`; the stored status is the
non-terminal `in_progress` again — `update_job` has no terminal-state guard. -/
theorem terminal_not_absorbing_counterexample :
    (lookupJob (updateJob (updateJob (createJob [] "j" "fetch" [] 0).2 "j"
          (some JobStatus.completed) none none none 1).2 "j"
          (some JobStatus.in_progress) none none none 2).2 "j").map JobInfo.status
      = some JobStatus.in_progress := by
  decide

/-- C2 (amended): after `create(j)` the job's state is `pending`; but a
terminal status is not absorbing: `update_job` stores whatever status is
passed, so any later `update(j, status=X')` moves the job to `X'` even when
the current status is terminal. -/
theorem create_pending_and_update_sets_status (reg : Registry)
    (jobId jobType : String) (md : List (String × String)) (now : ℚ)
    (s : JobStatus) (p : Option ℚ) (r : Option ℤ) (e : Option String)
    (now2 : ℚ) (j0 : JobInfo) (h : lookupJob reg jobId = some j0) :
    (createJob reg jobId jobType md now).1.status = JobStatus.pending ∧
      (updateJob reg jobId (some s) p r e now2).1.map JobInfo.status = some s := by
  refine ⟨rfl, ?_⟩
  rw [updateJob_found (some s) p r e now2 h]
  simp [applyUpdate_status]

/-- Witness for `create_pending_and_update_sets_status`: a job already in the
terminal `failed` status is moved back to `in_progress` by an update. -/
theorem create_pending_and_update_sets_status_witness :
    (createJob [{ job_id := "w", job_type := "fetch", status := .failed, started_at := 0 }] "w" "fetch" [] 1).1.status = JobStatus.pending ∧
      (updateJob [{ job_id := "w", job_type := "fetch", status := .failed, started_at := 0 }] "w" (some JobStatus.in_progress) none none none 2).1.map
          JobInfo.status = some JobStatus.in_progress :=
  create_pending_and_update_sets_status _ "w" "fetch" [] 1 JobStatus.in_progress
    none none none 2
    { job_id := "w", job_type := "fetch", status := .failed, started_at := 0 }
    (by decide)

/-! ### Claim C8 -/

/-- C8: `update_job` on an id that is not in the registry returns the
not-found signal (`None`) and leaves the registry unchanged; in particular it
creates no record. -/
theorem updateJob_not_found (reg : Registry) (jobId : String)
    (status : Option JobStatus) (progress : Option ℚ) (records_fetched : Option ℤ)
    (error : Option String) (now : ℚ)
    (h : lookupJob reg jobId = none) :
    updateJob reg jobId status progress records_fetched error now = (none, reg) := by
  unfold updateJob
  unfold lookupJob at h
  rw [h]

/-- Witness for `updateJob_not_found` at a concrete registry. -/
theorem updateJob_not_found_witness :
    updateJob [{ job_id := "a", job_type := "fetch", status := .pending, started_at := 0 }] "b"
        (some JobStatus.completed) (some 50) (some 3) (some "oops") 9
      = (none, [{ job_id := "a", job_type := "fetch", status := .pending, started_at := 0 }]) :=
  updateJob_not_found _ "b" (some JobStatus.completed) (some 50) (some 3)
    (some "oops") 9 (by decide)

/-! ### Sorting lemmas for the cleanup sweep -/

theorem sortJobs_perm (reg : Registry) : (sortJobs reg).Perm reg :=
  List.perm_insertionSort _ reg

theorem sortJobs_sorted (reg : Registry) :
    List.Pairwise (fun a b => b.started_at ≤ a.started_at) (sortJobs reg) :=
  List.sorted_insertionSort _ reg

theorem countP_lt_length_of_mem_not {α : Type} (p : α → Bool) {l : List α} {a : α}
    (ha : a ∈ l) (hpa : ¬p a = true) : l.countP p < l.length := by
  obtain ⟨u, v, rfl⟩ := List.append_of_mem ha
  rw [List.countP_append, List.length_append, List.countP_cons_of_neg p v hpa]
  have h1 : u.countP p ≤ u.length := List.countP_le_length p
  have h2 : v.countP p ≤ v.length := List.countP_le_length p
  simp only [List.length_cons]
  omega

/-- A job among the first `n` of the sorted list has fewer than `n` more
recently started jobs. -/
theorem count_lt_of_mem_take (reg : Registry) (n : ℕ) (j : JobInfo)
    (hnd : reg.Nodup) (hj : j ∈ (sortJobs reg).take n) :
    moreRecentCount reg j < n := by
  have hperm := sortJobs_perm reg
  have hsorted := sortJobs_sorted reg
  have hsnd : (sortJobs reg).Nodup := hperm.nodup_iff.mpr hnd
  have hjs : j ∈ sortJobs reg := List.mem_of_mem_take hj
  obtain ⟨u, v, huv⟩ := List.append_of_mem hjs
  have hcount : moreRecentCount reg j
      = List.countP (fun k => j.started_at < k.started_at) (u ++ j :: v) := by
    unfold moreRecentCount
    rw [← huv]
    exact (List.Perm.countP_eq _ hperm).symm
  have hsort2 : List.Pairwise (fun a b => b.started_at ≤ a.started_at) (u ++ j :: v) :=
    huv ▸ hsorted
  rw [List.pairwise_append] at hsort2
  obtain ⟨-, hjv, -⟩ := hsort2
  have htail : List.countP (fun k => j.started_at < k.started_at) (j :: v) = 0 := by
    rw [List.countP_eq_zero]
    intro a ha
    rcases List.mem_cons.mp ha with rfl | hav
    · simp
    · have h1 : a.started_at ≤ j.started_at := List.rel_of_pairwise_cons hjv hav
      simp only [decide_eq_true_eq]
      exact not_lt.mpr h1
  have hulen : u.length < n := by
    by_contra hn
    push_neg at hn
    have htake : (sortJobs reg).take n = u.take n := by
      rw [huv, List.take_append_eq_append_take]
      have h0 : n - u.length = 0 := by omega
      rw [h0]
      simp
    rw [htake] at hj
    have hju : j ∈ u := List.mem_of_mem_take hj
    have hnd2 : (u ++ j :: v).Nodup := huv ▸ hsnd
    rw [List.nodup_append] at hnd2
    exact hnd2.2.2 hju (List.mem_cons_self j v)
  have hle : List.countP (fun k => j.started_at < k.started_at) u ≤ u.length :=
    List.countP_le_length _
  rw [hcount, List.countP_append, htail]
  omega

/-- A job beyond the first `n` of the sorted list has at least `n` more
recently started jobs, provided start times are distinct. -/
theorem count_ge_of_mem_drop (reg : Registry) (n : ℕ) (j : JobInfo)
    (hnd : reg.Nodup) (ht : (reg.map JobInfo.started_at).Nodup)
    (hj : j ∈ (sortJobs reg).drop n) :
    n ≤ moreRecentCount reg j := by
  have hperm := sortJobs_perm reg
  have hsorted := sortJobs_sorted reg
  have hsnd : (sortJobs reg).Nodup := hperm.nodup_iff.mpr hnd
  have hts : ((sortJobs reg).map JobInfo.started_at).Nodup :=
    ((hperm.map JobInfo.started_at).nodup_iff).mpr ht
  have hjs : j ∈ sortJobs reg := List.mem_of_mem_drop hj
  obtain ⟨u, v, huv⟩ := List.append_of_mem hjs
  have hcount : moreRecentCount reg j
      = List.countP (fun k => j.started_at < k.started_at) (u ++ j :: v) := by
    unfold moreRecentCount
    rw [← huv]
    exact (List.Perm.countP_eq _ hperm).symm
  have hsort2 : List.Pairwise (fun a b => b.started_at ≤ a.started_at) (u ++ j :: v) :=
    huv ▸ hsorted
  rw [List.pairwise_append] at hsort2
  obtain ⟨-, -, hcross⟩ := hsort2
  have hts2 : ((u ++ j :: v).map JobInfo.started_at).Nodup := huv ▸ hts
  rw [List.map_append, List.nodup_append] at hts2
  have hufull : List.countP (fun k => j.started_at < k.started_at) u = u.length := by
    rw [List.countP_eq_length]
    intro a hau
    have hle : j.started_at ≤ a.started_at := hcross a hau j (List.mem_cons_self j v)
    have hne : a.started_at ≠ j.started_at := by
      intro he
      have h1 : a.started_at ∈ u.map JobInfo.started_at := List.mem_map_of_mem _ hau
      have h2 : a.started_at ∈ (j :: v).map JobInfo.started_at := by
        rw [List.map_cons, he]
        exact List.mem_cons_self _ _
      exact hts2.2.2 h1 h2
    simp only [decide_eq_true_eq]
    exact lt_of_le_of_ne hle (Ne.symm hne)
  have hulen : n ≤ u.length := by
    by_contra hn
    push_neg at hn
    have hjtake : j ∈ (sortJobs reg).take n := by
      rw [huv, List.take_append_eq_append_take]
      apply List.mem_append.mpr
      right
      cases hk : n - u.length with
      | zero => omega
      | succ m =>
          rw [List.take_succ_cons]
          exact List.mem_cons_self _ _
    exact (List.disjoint_take_drop hsnd (le_refl n)) hjtake hj
  rw [hcount, List.countP_append]
  omega

/-- Counting identity behind the returned removal count of the sweep. -/
theorem removed_count_eq {α : Type} (reg s t d : List α) (nk cf : α → Bool)
    (hperm : s.Perm reg) (hs : s = t ++ d)
    (h1 : ∀ a ∈ t, nk a = false)
    (h2 : ∀ a ∈ d, nk a = cf a) :
    (d.filter cf).length = reg.length - (reg.filter (fun k => !(nk k))).length := by
  have e1 : s.countP nk = reg.countP nk := List.Perm.countP_eq nk hperm
  have e2 : s.countP nk = t.countP nk + d.countP nk := by
    rw [hs, List.countP_append]
  have e3 : t.countP nk = 0 := by
    rw [List.countP_eq_zero]
    intro a ha
    simp [h1 a ha]
  have e4 : d.countP nk = d.countP cf :=
    List.countP_congr (fun x hx => by rw [h2 x hx])
  have e5 : d.countP cf = (d.filter cf).length := List.countP_eq_length_filter _ _
  have e6 : (reg.filter (fun k => !(nk k))).length = reg.countP (fun k => !(nk k)) :=
    (List.countP_eq_length_filter _ _).symm
  have e7 : reg.length = reg.countP nk + reg.countP (fun k => !(nk k)) := by
    rw [List.length_eq_countP_add_countP nk reg]
    congr 1
    apply List.countP_congr
    intro x _
    cases h : nk x <;> simp [h]
  rw [e6]
  omega

/-- Full characterization of the cleanup sweep: the returned count, the
retention of the `keep_last_n` most-recently-started jobs, the removal rule
beyond them, and the surviving registry as a filter of the original one. -/
theorem cleanupOldJobs_characterization (reg : Registry) (n : ℕ)
    (hid : (reg.map JobInfo.job_id).Nodup)
    (ht : (reg.map JobInfo.started_at).Nodup) :
    (cleanupOldJobs reg n).2 = reg.length - (cleanupOldJobs reg n).1.length ∧
      (∀ j ∈ reg, moreRecentCount reg j < n → j ∈ (cleanupOldJobs reg n).1) ∧
      (∀ j ∈ reg, n ≤ moreRecentCount reg j →
        (j ∉ (cleanupOldJobs reg n).1 ↔
          (j.status = JobStatus.completed ∨ j.status = JobStatus.failed))) ∧
      (cleanupOldJobs reg n).1 = reg.filter (fun j =>
        decide (moreRecentCount reg j < n)
          || !(j.status == JobStatus.completed || j.status == JobStatus.failed)) := by
  have hnd : reg.Nodup := List.Nodup.of_map JobInfo.job_id hid
  have hperm := sortJobs_perm reg
  have hsnd : (sortJobs reg).Nodup := hperm.nodup_iff.mpr hnd
  have hids : ((sortJobs reg).map JobInfo.job_id).Nodup :=
    ((hperm.map JobInfo.job_id).nodup_iff).mpr hid
  have hinj := List.inj_on_of_nodup_map hids
  by_cases hlen : (sortJobs reg).length ≤ n
  · have hcl : cleanupOldJobs reg n = (reg, 0) := by
      simp only [cleanupOldJobs]
      rw [if_pos hlen]
    rw [hcl]
    refine ⟨by simp, fun j hj _ => hj, fun j hj hcnt => ?_, ?_⟩
    · exfalso
      have h1 : moreRecentCount reg j < reg.length :=
        countP_lt_length_of_mem_not _ hj (by simp)
      have h2 : (sortJobs reg).length = reg.length := hperm.length_eq
      omega
    · symm
      rw [List.filter_eq_self]
      intro j hj
      have h1 : moreRecentCount reg j < reg.length :=
        countP_lt_length_of_mem_not _ hj (by simp)
      have h2 : (sortJobs reg).length = reg.length := hperm.length_eq
      have h3 : moreRecentCount reg j < n := by omega
      simp [h3]
  · have hcl : cleanupOldJobs reg n =
        (reg.filter (fun j => !((((sortJobs reg).drop n).filter
            (fun j => j.status == JobStatus.completed || j.status == JobStatus.failed)).any
            (fun r => r.job_id == j.job_id))),
         (((sortJobs reg).drop n).filter
            (fun j => j.status == JobStatus.completed || j.status == JobStatus.failed)).length) := by
      simp only [cleanupOldJobs]
      rw [if_neg hlen]
    have hkeep_take : ∀ j ∈ (sortJobs reg).take n,
        ((((sortJobs reg).drop n).filter
            (fun k => k.status == JobStatus.completed || k.status == JobStatus.failed)).any
          (fun r => r.job_id == j.job_id)) = false := by
      intro j hj
      rw [List.any_eq_false]
      intro r hr
      have hrd := (List.mem_filter.mp hr).1
      simp only [beq_iff_eq]
      intro he
      have hjq : j ∈ sortJobs reg := List.mem_of_mem_take hj
      have hrq : r ∈ sortJobs reg := List.mem_of_mem_drop hrd
      have hrj : r = j := hinj hrq hjq he
      exact (List.disjoint_take_drop hsnd (le_refl n)) hj (hrj ▸ hrd)
    have hkeep_drop : ∀ j ∈ (sortJobs reg).drop n,
        ((((sortJobs reg).drop n).filter
            (fun k => k.status == JobStatus.completed || k.status == JobStatus.failed)).any
          (fun r => r.job_id == j.job_id))
          = (j.status == JobStatus.completed || j.status == JobStatus.failed) := by
      intro j hj
      by_cases hcf : (j.status == JobStatus.completed || j.status == JobStatus.failed) = true
      · rw [hcf, List.any_eq_true]
        exact ⟨j, List.mem_filter.mpr ⟨hj, hcf⟩, by simp⟩
      · rw [Bool.not_eq_true] at hcf
        rw [hcf, List.any_eq_false]
        intro r hr
        obtain ⟨hrd, hrcf⟩ := List.mem_filter.mp hr
        simp only [beq_iff_eq]
        intro he
        have hrj : r = j :=
          hinj (List.mem_of_mem_drop hrd) (List.mem_of_mem_drop hj) he
        rw [hrj, hcf] at hrcf
        exact Bool.false_ne_true hrcf
    have hdich : ∀ j ∈ reg, j ∈ (sortJobs reg).take n ∨ j ∈ (sortJobs reg).drop n := by
      intro j hj
      have hmem : j ∈ sortJobs reg := hperm.mem_iff.mpr hj
      rw [← List.take_append_drop n (sortJobs reg)] at hmem
      exact List.mem_append.mp hmem
    refine ⟨?_, ?_, ?_, ?_⟩
    · rw [hcl]
      exact removed_count_eq reg (sortJobs reg) ((sortJobs reg).take n)
        ((sortJobs reg).drop n)
        (fun j => (((sortJobs reg).drop n).filter
            (fun k => k.status == JobStatus.completed || k.status == JobStatus.failed)).any
          (fun r => r.job_id == j.job_id))
        (fun k => k.status == JobStatus.completed || k.status == JobStatus.failed)
        hperm (List.take_append_drop n (sortJobs reg)).symm hkeep_take hkeep_drop
    · intro j hj hcnt
      rcases hdich j hj with htk | hdr
      · rw [hcl]
        refine List.mem_filter.mpr ⟨hj, ?_⟩
        simp only [hkeep_take j htk, Bool.not_false]
      · exact absurd (count_ge_of_mem_drop reg n j hnd ht hdr) (by omega)
    · intro j hj hcnt
      have hdr : j ∈ (sortJobs reg).drop n := by
        rcases hdich j hj with htk | hdr
        · exact absurd (count_lt_of_mem_take reg n j hnd htk) (by omega)
        · exact hdr
      have hmem_iff : j ∈ (cleanupOldJobs reg n).1
          ↔ ¬(j.status = JobStatus.completed ∨ j.status = JobStatus.failed) := by
        rw [hcl]
        simp only [List.mem_filter, hj, true_and, Bool.not_eq_true']
        rw [hkeep_drop j hdr]
        simp only [Bool.or_eq_false_iff, beq_eq_false_iff_ne, ne_eq, not_or]
      rw [hmem_iff]
      exact not_not
    · rw [hcl]
      apply List.filter_congr
      intro j hj
      rcases hdich j hj with htk | hdr
      · have h1 := hkeep_take j htk
        have h2 : moreRecentCount reg j < n := count_lt_of_mem_take reg n j hnd htk
        simp [h1, h2]
      · have h1 := hkeep_drop j hdr
        have h2 : ¬(moreRecentCount reg j < n) :=
          not_lt.mpr (count_ge_of_mem_drop reg n j hnd ht hdr)
        simp [h1, h2]

/-! ### Claim C5 -/

/-- C5: `cleanup_old_jobs` retains the `keep_last_n` most-recently-started
jobs unconditionally (a job with fewer than `keep_last_n` more recent jobs is
kept); among the remaining jobs it removes exactly those whose status is
`completed` or `failed` — so `pending`, `in_progress`, and `timeout` jobs are
never removed — and the returned value is the number of jobs removed.  Ids
and start times are assumed pairwise distinct. -/
theorem cleanupOldJobs_spec (reg : Registry) (n : ℕ)
    (hid : (reg.map JobInfo.job_id).Nodup)
    (ht : (reg.map JobInfo.started_at).Nodup) :
    (cleanupOldJobs reg n).2 = reg.length - (cleanupOldJobs reg n).1.length ∧
      (∀ j ∈ reg, moreRecentCount reg j < n → j ∈ (cleanupOldJobs reg n).1) ∧
      (∀ j ∈ reg, n ≤ moreRecentCount reg j →
        (j ∉ (cleanupOldJobs reg n).1 ↔
          (j.status = JobStatus.completed ∨ j.status = JobStatus.failed))) := by
  obtain ⟨h1, h2, h3, -⟩ := cleanupOldJobs_characterization reg n hid ht
  exact ⟨h1, h2, h3⟩

/-- Witness for `cleanupOldJobs_spec` on a concrete three-job registry. -/
theorem cleanupOldJobs_spec_witness :
    (cleanupOldJobs sampleRegistry3 1).2
        = sampleRegistry3.length - (cleanupOldJobs sampleRegistry3 1).1.length ∧
      (∀ j ∈ sampleRegistry3, moreRecentCount sampleRegistry3 j < 1 →
        j ∈ (cleanupOldJobs sampleRegistry3 1).1) ∧
      (∀ j ∈ sampleRegistry3, 1 ≤ moreRecentCount sampleRegistry3 j →
        (j ∉ (cleanupOldJobs sampleRegistry3 1).1 ↔
          (j.status = JobStatus.completed ∨ j.status = JobStatus.failed))) :=
  cleanupOldJobs_spec sampleRegistry3 1 (by decide) (by decide)

/-! ### Counting lemmas about recency ranks -/

theorem countP_diff_of_imp {α : Type} (p q : α → Bool) (l : List α)
    (h : ∀ x ∈ l, p x = true → q x = true) :
    l.countP (fun x => q x && !(p x)) = l.countP q - l.countP p := by
  induction l with
  | nil => simp
  | cons a tl ih =>
      have hmono : tl.countP p ≤ tl.countP q :=
        List.countP_mono_left (fun x hx => h x (List.mem_cons_of_mem a hx))
      have iht := ih (fun x hx hp => h x (List.mem_cons_of_mem a hx) hp)
      cases hp : p a with
      | true =>
          have hqa : q a = true := h a (List.mem_cons_self a tl) hp
          have e1 : List.countP q (a :: tl) = List.countP q tl + 1 :=
            List.countP_cons_of_pos q tl hqa
          have e2 : List.countP p (a :: tl) = List.countP p tl + 1 :=
            List.countP_cons_of_pos p tl hp
          have e3 : List.countP (fun x => q x && !(p x)) (a :: tl)
              = List.countP (fun x => q x && !(p x)) tl :=
            List.countP_cons_of_neg _ tl (by simp [hp])
          rw [e1, e2, e3]
          omega
      | false =>
          cases hq : q a with
          | true =>
              have e1 : List.countP q (a :: tl) = List.countP q tl + 1 :=
                List.countP_cons_of_pos q tl hq
              have e2 : List.countP p (a :: tl) = List.countP p tl :=
                List.countP_cons_of_neg p tl (by simp [hp])
              have e3 : List.countP (fun x => q x && !(p x)) (a :: tl)
                  = List.countP (fun x => q x && !(p x)) tl + 1 :=
                List.countP_cons_of_pos _ tl (by simp [hq, hp])
              rw [e1, e2, e3]
              omega
          | false =>
              have e1 : List.countP q (a :: tl) = List.countP q tl :=
                List.countP_cons_of_neg q tl (by simp [hq])
              have e2 : List.countP p (a :: tl) = List.countP p tl :=
                List.countP_cons_of_neg p tl (by simp [hp])
              have e3 : List.countP (fun x => q x && !(p x)) (a :: tl)
                  = List.countP (fun x => q x && !(p x)) tl :=
                List.countP_cons_of_neg _ tl (by simp [hq])
              rw [e1, e2, e3]
              omega

theorem countP_not_eq {α : Type} (p : α → Bool) (l : List α) :
    l.countP (fun x => !(p x)) = l.length - l.countP p := by
  have h := List.length_eq_countP_add_countP p l
  have h2 : l.countP (fun x => decide (¬p x = true)) = l.countP (fun x => !(p x)) := by
    apply List.countP_congr
    intro x _
    cases hx : p x <;> simp [hx]
  omega

/-- A job started strictly earlier than a member of the registry has the
strictly larger recency count. -/
theorem moreRecentCount_lt_of_started_lt (reg : Registry) (j k : JobInfo)
    (hk : k ∈ reg) (h : j.started_at < k.started_at) :
    moreRecentCount reg k < moreRecentCount reg j := by
  obtain ⟨u, v, rfl⟩ := List.append_of_mem hk
  unfold moreRecentCount
  rw [List.countP_append, List.countP_append]
  have hu : u.countP (fun x => decide (k.started_at < x.started_at))
      ≤ u.countP (fun x => decide (j.started_at < x.started_at)) :=
    List.countP_mono_left (fun x _ hx => by
      simp only [decide_eq_true_eq] at hx ⊢
      exact lt_trans h hx)
  have hv : v.countP (fun x => decide (k.started_at < x.started_at))
      ≤ v.countP (fun x => decide (j.started_at < x.started_at)) :=
    List.countP_mono_left (fun x _ hx => by
      simp only [decide_eq_true_eq] at hx ⊢
      exact lt_trans h hx)
  have e1 : List.countP (fun x => decide (k.started_at < x.started_at)) (k :: v)
      = List.countP (fun x => decide (k.started_at < x.started_at)) v :=
    List.countP_cons_of_neg _ v (by simp)
  have e2 : List.countP (fun x => decide (j.started_at < x.started_at)) (k :: v)
      = List.countP (fun x => decide (j.started_at < x.started_at)) v + 1 :=
    List.countP_cons_of_pos _ v (by simp [h])
  rw [e1, e2]
  omega

/-- Exactly `min n reg.length` jobs are among the `n` most recently started. -/
theorem countP_moreRecentCount_lt (reg : Registry) (n : ℕ)
    (hid : (reg.map JobInfo.job_id).Nodup)
    (ht : (reg.map JobInfo.started_at).Nodup) :
    reg.countP (fun j => decide (moreRecentCount reg j < n)) = min n reg.length := by
  have hnd : reg.Nodup := List.Nodup.of_map JobInfo.job_id hid
  have hperm := sortJobs_perm reg
  have e0 : reg.countP (fun j => decide (moreRecentCount reg j < n))
      = (sortJobs reg).countP (fun j => decide (moreRecentCount reg j < n)) :=
    (List.Perm.countP_eq _ hperm).symm
  have esplit : (sortJobs reg).countP (fun j => decide (moreRecentCount reg j < n))
      = ((sortJobs reg).take n).countP (fun j => decide (moreRecentCount reg j < n))
        + ((sortJobs reg).drop n).countP (fun j => decide (moreRecentCount reg j < n)) := by
    conv_lhs => rw [← List.take_append_drop n (sortJobs reg)]
    rw [List.countP_append]
  have etake : ((sortJobs reg).take n).countP
        (fun j => decide (moreRecentCount reg j < n))
      = ((sortJobs reg).take n).length := by
    rw [List.countP_eq_length]
    intro a ha
    simp only [decide_eq_true_eq]
    exact count_lt_of_mem_take reg n a hnd ha
  have edrop : ((sortJobs reg).drop n).countP
      (fun j => decide (moreRecentCount reg j < n)) = 0 := by
    rw [List.countP_eq_zero]
    intro a ha
    simp only [decide_eq_true_eq]
    exact not_lt.mpr (count_ge_of_mem_drop reg n a hnd ht ha)
  rw [e0, esplit, etake, edrop, List.length_take, hperm.length_eq]
  omega

theorem countP_eq_one_unique {α : Type} (p : α → Bool) (l : List α) (a b : α)
    (h : l.countP p = 1) (ha : a ∈ l) (hb : b ∈ l)
    (hpa : p a = true) (hpb : p b = true) : a = b := by
  rw [List.countP_eq_length_filter] at h
  obtain ⟨c, hc⟩ := List.length_eq_one.mp h
  have h1 : a ∈ l.filter p := List.mem_filter.mpr ⟨ha, hpa⟩
  have h2 : b ∈ l.filter p := List.mem_filter.mpr ⟨hb, hpb⟩
  rw [hc] at h1 h2
  rw [List.mem_singleton.mp h1, List.mem_singleton.mp h2]

/-! ### Claim C6 -/

/-- Counterexample to C6 (as stated): in the five-job registry whose three
completed jobs are the three oldest, `cleanup(keep_last_n=2)` retains the two
pending jobs (the two most recent) and removes all three completed jobs —
three removals, not exactly one. -/
theorem cleanup_five_jobs_counterexample :
    (cleanupOldJobs fiveJobsOldCompleted 2).2 = 3 ∧
      (cleanupOldJobs fiveJobsOldCompleted 2).2 ≠ 1 ∧
      (∀ j ∈ (cleanupOldJobs fiveJobsOldCompleted 2).1,
        j.status = JobStatus.pending) := by
  decide

/-- C6 (amended): on every registry of five jobs with pairwise distinct ids
and start times, of which three are completed and two pending,
`cleanup(keep_last_n=2)` keeps every pending job regardless of age and
removes exactly the completed jobs that are not among the two
most-recently-started; whenever the two most-recently-started jobs are both
completed, exactly one job is removed — the oldest completed job. -/
theorem cleanup_five_jobs_amended (reg : Registry)
    (hid : (reg.map JobInfo.job_id).Nodup)
    (ht : (reg.map JobInfo.started_at).Nodup)
    (hlen : reg.length = 5)
    (hstat : ∀ j ∈ reg, j.status = JobStatus.completed ∨ j.status = JobStatus.pending)
    (hcomp : (reg.filter (fun j => j.status == JobStatus.completed)).length = 3) :
    (∀ j ∈ reg, j.status = JobStatus.pending → j ∈ (cleanupOldJobs reg 2).1) ∧
      (∀ j ∈ reg, j.status = JobStatus.completed →
        (j ∉ (cleanupOldJobs reg 2).1 ↔ 2 ≤ moreRecentCount reg j)) ∧
      ((∀ j ∈ reg, moreRecentCount reg j < 2 → j.status = JobStatus.completed) →
        (cleanupOldJobs reg 2).2 = 1 ∧
          (∀ j ∈ reg, (j ∉ (cleanupOldJobs reg 2).1 ↔
            (j.status = JobStatus.completed ∧
              ∀ k ∈ reg, k.status = JobStatus.completed →
                j.started_at ≤ k.started_at)))) := by
  obtain ⟨hcount, hretain, hdropiff, hfilter⟩ :=
    cleanupOldJobs_characterization reg 2 hid ht
  have hpend : ∀ j ∈ reg, j.status = JobStatus.pending →
      j ∈ (cleanupOldJobs reg 2).1 := by
    intro j hj hp
    by_cases hc : moreRecentCount reg j < 2
    · exact hretain j hj hc
    · by_contra hmem
      rcases (hdropiff j hj (not_lt.mp hc)).mp hmem with hcf | hcf <;>
        · rw [hp] at hcf
          simp at hcf
  have hcompiff : ∀ j ∈ reg, j.status = JobStatus.completed →
      (j ∉ (cleanupOldJobs reg 2).1 ↔ 2 ≤ moreRecentCount reg j) := by
    intro j hj hc
    constructor
    · intro hmem
      by_contra hlt
      exact hmem (hretain j hj (not_le.mp hlt))
    · intro hge
      exact (hdropiff j hj hge).mpr (Or.inl hc)
  refine ⟨hpend, hcompiff, ?_⟩
  intro h2
  have hcnt2 : reg.countP (fun j => decide (moreRecentCount reg j < 2)) = 2 := by
    rw [countP_moreRecentCount_lt reg 2 hid ht, hlen]
    omega
  have himp : ∀ x ∈ reg, decide (moreRecentCount reg x < 2) = true →
      (x.status == JobStatus.completed) = true := by
    intro x hx hdx
    have hxc := h2 x hx (by simpa using hdx)
    simp [hxc]
  have hcompP : reg.countP (fun j => j.status == JobStatus.completed) = 3 := by
    rw [List.countP_eq_length_filter]
    exact hcomp
  have hP1 : reg.countP (fun x => (x.status == JobStatus.completed)
      && !(decide (moreRecentCount reg x < 2))) = 1 := by
    rw [countP_diff_of_imp _ _ reg himp, hcompP, hcnt2]
  have hPmem : ∀ j ∈ reg, (j ∉ (cleanupOldJobs reg 2).1 ↔
      (j.status = JobStatus.completed ∧ 2 ≤ moreRecentCount reg j)) := by
    intro j hj
    rcases hstat j hj with hc | hp
    · rw [hcompiff j hj hc]
      exact ⟨fun hge => ⟨hc, hge⟩, fun hx => hx.2⟩
    · have hk := hpend j hj hp
      constructor
      · intro hmem
        exact absurd hk hmem
      · intro hx
        rw [hp] at hx
        simp at hx
  have hkeeplen : (cleanupOldJobs reg 2).1.length = 4 := by
    rw [hfilter, ← List.countP_eq_length_filter]
    have hb1 : (JobStatus.completed == JobStatus.completed) = true := by decide
    have hb2 : (JobStatus.completed == JobStatus.failed) = false := by decide
    have hb3 : (JobStatus.pending == JobStatus.completed) = false := by decide
    have hb4 : (JobStatus.pending == JobStatus.failed) = false := by decide
    have hcongr : reg.countP (fun j => decide (moreRecentCount reg j < 2)
        || !(j.status == JobStatus.completed || j.status == JobStatus.failed))
        = reg.countP (fun x => !((x.status == JobStatus.completed)
            && !(decide (moreRecentCount reg x < 2)))) := by
      apply List.countP_congr
      intro x hx
      rcases hstat x hx with hc | hp
      · simp [hc, hb1, hb2]
      · simp [hp, hb3, hb4]
    rw [hcongr, countP_not_eq, hP1, hlen]
  have hc1 : (cleanupOldJobs reg 2).2 = 1 := by
    rw [hcount, hkeeplen, hlen]
  refine ⟨hc1, ?_⟩
  intro j hj
  rw [hPmem j hj]
  constructor
  · rintro ⟨hc, hge⟩
    refine ⟨hc, ?_⟩
    intro k hk hkc
    by_cases hjk : j = k
    · rw [hjk]
    · by_cases hkge : 2 ≤ moreRecentCount reg k
      · exact absurd (countP_eq_one_unique _ reg j k hP1 hj hk
          (by simp [hc, not_lt.mpr hge]) (by simp [hkc, not_lt.mpr hkge])) hjk
      · have hklt : moreRecentCount reg k < moreRecentCount reg j := by
          have := not_le.mp hkge
          omega
        rcases lt_trichotomy j.started_at k.started_at with hlt | heq | hgt
        · exact le_of_lt hlt
        · exact le_of_eq heq
        · exfalso
          have := moreRecentCount_lt_of_started_lt reg k j hj hgt
          omega
  · rintro ⟨hc, hold⟩
    refine ⟨hc, ?_⟩
    by_contra hlt
    push_neg at hlt
    have hpos : 0 < reg.countP (fun x => (x.status == JobStatus.completed)
        && !(decide (moreRecentCount reg x < 2))) := by omega
    obtain ⟨c, hcr, hPc⟩ := List.countP_pos_iff.mp hpos
    simp only [Bool.and_eq_true] at hPc
    have hcc : c.status = JobStatus.completed := by simpa using hPc.1
    have hcge : 2 ≤ moreRecentCount reg c := by
      have hb := hPc.2
      simp only [Bool.not_eq_true', decide_eq_false_iff_not] at hb
      exact not_lt.mp hb
    have hle := hold c hcr hcc
    have hcj : moreRecentCount reg j < moreRecentCount reg c := by omega
    rcases lt_trichotomy c.started_at j.started_at with h1 | h1 | h1
    · exact absurd hle (not_le.mpr h1)
    · have heqc : moreRecentCount reg c = moreRecentCount reg j := by
        unfold moreRecentCount
        rw [h1]
      omega
    · have := moreRecentCount_lt_of_started_lt reg j c hcr h1
      omega

/-- Witness for `cleanup_five_jobs_amended` at the registry whose two most
recent jobs are completed: one removal, the oldest completed job. -/
theorem cleanup_five_jobs_amended_witness :
    (∀ j ∈ fiveJobsRecentCompleted, j.status = JobStatus.pending →
        j ∈ (cleanupOldJobs fiveJobsRecentCompleted 2).1) ∧
      (∀ j ∈ fiveJobsRecentCompleted, j.status = JobStatus.completed →
        (j ∉ (cleanupOldJobs fiveJobsRecentCompleted 2).1 ↔
          2 ≤ moreRecentCount fiveJobsRecentCompleted j)) ∧
      ((∀ j ∈ fiveJobsRecentCompleted,
          moreRecentCount fiveJobsRecentCompleted j < 2 →
            j.status = JobStatus.completed) →
        (cleanupOldJobs fiveJobsRecentCompleted 2).2 = 1 ∧
          (∀ j ∈ fiveJobsRecentCompleted,
            (j ∉ (cleanupOldJobs fiveJobsRecentCompleted 2).1 ↔
              (j.status = JobStatus.completed ∧
                ∀ k ∈ fiveJobsRecentCompleted, k.status = JobStatus.completed →
                  j.started_at ≤ k.started_at)))) :=
  cleanup_five_jobs_amended fiveJobsRecentCompleted (by decide) (by decide)
    (by decide) (by decide) (by decide)

/-! ### Claim C4 -/

theorem fetchPollLoop_timeout_aux {α : Type} (maxWait pollInterval : ℚ)
    (resp : ℕ → StatusResponse) (dur : ℕ → ℚ) (download : String → α) (n : ℕ)
    (hprog : ∀ j, InProgressClass (resp j))
    (hn : maxWait < elapsedAt dur pollInterval n)
    (hleast : ∀ m < n, elapsedAt dur pollInterval m ≤ maxWait) :
    ∀ j k fuel, k + j = n → j < fuel →
      fetchPollLoop maxWait pollInterval resp dur download fuel k
        (elapsedAt dur pollInterval k) = .timedOut n := by
  intro j
  induction j with
  | zero =>
      intro k fuel hk hf
      cases fuel with
      | zero => omega
      | succ f =>
          have hkn : k = n := by omega
          subst hkn
          simp only [fetchPollLoop]
          rw [if_pos hn]
  | succ m ih =>
      intro k fuel hk hf
      cases fuel with
      | zero => omega
      | succ f =>
          have hkn : k < n := by omega
          have hle := hleast k hkn
          obtain ⟨h1, h2, h3⟩ := hprog k
          simp only [fetchPollLoop]
          rw [if_neg (not_lt.mpr hle)]
          rw [if_neg (by simp [h1] : ¬(((resp k).status == some "SUCCESS") = true))]
          rw [if_neg (by simp [h2, h3] :
            ¬((((resp k).status == some "FAILURE")
                || ((resp k).status == some "FAILED")) = true))]
          have hstep : elapsedAt dur pollInterval k + dur k + pollInterval
              = elapsedAt dur pollInterval (k + 1) := by
            unfold elapsedAt
            rw [Finset.sum_range_succ]
            ring
          rw [hstep]
          exact ih (k + 1) f (by omega) (by omega)

/-- C4: when every status poll answers with an in-progress-class status, the
poll loop of `fetch_keyword_report` raises `TimeoutError` at the first
elapsed-time check that finds the cumulative elapsed wall-clock time strictly
above `max_wait`: if the elapsed time first exceeds `max_wait` after `n`
poll-and-sleep rounds, the loop ends in `timedOut n` — `failed`-style exits
never occur — for any fuel bound exceeding `n`.  At `max_wait = 10`,
`poll_interval = 5`, status always `IN_PROGRESS` and any positive per-poll
duration at most 5, this gives `n = 2`: the `TimeoutError` is raised at the
check following the second poll. -/
theorem fetch_timeout_first_exceeding_check {α : Type} (maxWait pollInterval : ℚ)
    (resp : ℕ → StatusResponse) (dur : ℕ → ℚ) (download : String → α) (n fuel : ℕ)
    (hprog : ∀ j, InProgressClass (resp j))
    (hn : maxWait < elapsedAt dur pollInterval n)
    (hleast : ∀ m < n, elapsedAt dur pollInterval m ≤ maxWait)
    (hfuel : n < fuel) :
    fetchPollLoop maxWait pollInterval resp dur download fuel 0 0
      = .timedOut n := by
  have h0 : elapsedAt dur pollInterval 0 = 0 := by simp [elapsedAt]
  have hmain := fetchPollLoop_timeout_aux maxWait pollInterval resp dur download n
    hprog hn hleast n 0 fuel (by omega) hfuel
  rw [h0] at hmain
  exact hmain

/-- Witness for `fetch_timeout_first_exceeding_check` at the spec's example:
`max_wait = 10`, `poll_interval = 5`, every poll answering `IN_PROGRESS`
after consuming 1 second — the timeout fires at the check following the
second poll. -/
theorem fetch_timeout_first_exceeding_check_witness :
    fetchPollLoop 10 5 (fun _ => ⟨some "IN_PROGRESS", none⟩) (fun _ => 1)
        (fun _ : String => (0 : ℕ)) 3 0 0 = .timedOut 2 :=
  fetch_timeout_first_exceeding_check 10 5 (fun _ => ⟨some "IN_PROGRESS", none⟩)
    (fun _ => 1) (fun _ : String => (0 : ℕ)) 2 3
    (fun _ => ⟨by simp, by simp, by simp⟩)
    (by norm_num [elapsedAt, Finset.sum_range_succ])
    (by
      intro m hm
      interval_cases m <;> norm_num [elapsedAt, Finset.sum_range_succ])
    (by norm_num)

/-! ### Claim C9 -/

/-- C9: if a cached access token exists (non-empty) and the call time is
before the cached expiry minus the 300-second safety margin,
`_get_access_token` returns the cached token with the cache unchanged and
zero network calls; otherwise — no usable cached token, or the margin
reached — it performs exactly one refresh exchange, replaces the cached token
with the response's token (expiring `expires_in`, default 3600, seconds after
`now`), and returns the new token.  A second sequential call is a call on the
state the first one returned. -/
theorem getAccessToken_cache_policy (st : TokenState) (now : ℚ)
    (resp : TokenResponse) (tok : String) :
    (st.access_token = some tok → tok ≠ "" →
      now < st.token_expires_at - 300 →
      getAccessToken st now resp = (tok, st, 0)) ∧
    ((st.access_token = none ∨ st.access_token = some "" ∨
        st.token_expires_at - 300 ≤ now) →
      getAccessToken st now resp
        = (resp.access_token,
           { access_token := some resp.access_token,
             token_expires_at := now + resp.expires_in.getD 3600 }, 1)) := by
  constructor
  · intro h1 h2 h3
    have hc : pyTruthyToken st.access_token = true := by
      rw [h1]
      simp [pyTruthyToken, h2]
    unfold getAccessToken
    rw [if_pos ⟨hc, h3⟩, h1]
    rfl
  · intro h
    have hc : ¬(pyTruthyToken st.access_token = true ∧
        now < st.token_expires_at - 300) := by
      rintro ⟨hc1, hc2⟩
      rcases h with h | h | h
      · rw [h] at hc1
        simp [pyTruthyToken] at hc1
      · rw [h] at hc1
        simp [pyTruthyToken] at hc1
      · exact absurd hc2 (not_lt.mpr h)
    unfold getAccessToken
    rw [if_neg hc]

/-- Witness for `getAccessToken_cache_policy`: a still-valid cached token is
returned unchanged with zero network calls, and an empty cache triggers
exactly one refresh that replaces it. -/
theorem getAccessToken_cache_policy_witness :
    (getAccessToken ⟨some "tokA", 1000⟩ 500 ⟨"tokB", none⟩
        = ("tokA", ⟨some "tokA", 1000⟩, 0)) ∧
      (getAccessToken ⟨none, 0⟩ 500 ⟨"tokB", none⟩
        = ("tokB", ⟨some "tokB", 500 + 3600⟩, 1)) :=
  ⟨(getAccessToken_cache_policy ⟨some "tokA", 1000⟩ 500 ⟨"tokB", none⟩ "tokA").1
      rfl (by decide) (by norm_num),
   (getAccessToken_cache_policy ⟨none, 0⟩ 500 ⟨"tokB", none⟩ "x").2 (Or.inl rfl)⟩

/-! ### Claim C3 -/

/-- C3: when `fetch_keyword_report` ends in its timeout error, the fetch run
moves the job to the `timeout` status and records the timeout message — and
when it ends in any non-timeout exception, the run moves the job to `failed`
instead.  The job is required to exist, as the dispatcher guarantees. -/
theorem fetch_timeout_yields_timeout_status {α β : Type} (jobId : String)
    (parseRec : α → Option β) (persist : List β → ℤ) (reg : Registry)
    (now : ℚ) (job : JobInfo) (msg typeName other : String)
    (h : lookupJob reg jobId = some job) :
    (∃ j, lookupJob (fetchReportsAsync jobId
          (Except.error (PyExc.timeoutError msg)) parseRec persist reg now)
          jobId = some j ∧
        j.status = JobStatus.timeout ∧
        "Amazon Ads API report timed out" ∈ j.errors) ∧
    (∃ j, lookupJob (fetchReportsAsync jobId
          (Except.error (PyExc.otherExc typeName other)) parseRec persist reg now)
          jobId = some j ∧
        j.status = JobStatus.failed) := by
  have h1 := lookupJob_after_update (some JobStatus.in_progress) (some 0)
    none none now h
  have h2 := lookupJob_after_update none (some 10) none none now h1
  constructor
  · have h3 := lookupJob_after_update (some JobStatus.timeout) none none
      (some "Amazon Ads API report timed out") now h2
    refine ⟨_, h3, applyUpdate_status _ _ _ _ _ _, ?_⟩
    rw [applyUpdate_errors_some]
    simp
  · have h3 := lookupJob_after_update (some JobStatus.failed) none none
      (some (PyExc.typedMessage (.otherExc typeName other))) now h2
    exact ⟨_, h3, applyUpdate_status _ _ _ _ _ _⟩

/-- Witness for `fetch_timeout_yields_timeout_status` on a one-job registry. -/
theorem fetch_timeout_yields_timeout_status_witness :
    (∃ j, lookupJob (fetchReportsAsync "w"
          (Except.error (PyExc.timeoutError "poll budget exhausted"))
          (fun _ : ℕ => (none : Option ℕ)) (fun _ => 0)
          [{ job_id := "w", job_type := "fetch", status := .pending, started_at := 0 }] 9)
          "w" = some j ∧
        j.status = JobStatus.timeout ∧
        "Amazon Ads API report timed out" ∈ j.errors) ∧
    (∃ j, lookupJob (fetchReportsAsync "w"
          (Except.error (PyExc.otherExc "ValueError" "bad payload"))
          (fun _ : ℕ => (none : Option ℕ)) (fun _ => 0)
          [{ job_id := "w", job_type := "fetch", status := .pending, started_at := 0 }] 9)
          "w" = some j ∧
        j.status = JobStatus.failed) :=
  fetch_timeout_yields_timeout_status "w" (fun _ : ℕ => (none : Option ℕ))
    (fun _ => 0)
    [{ job_id := "w", job_type := "fetch", status := .pending, started_at := 0 }] 9
    { job_id := "w", job_type := "fetch", status := .pending, started_at := 0 }
    "poll budget exhausted" "ValueError" "bad payload" (by decide)

/-! ### Claim C7 -/

/-- C7: an import job whose spreadsheet parsing yields zero valid records
ends in the `completed` terminal state with progress 100 and a zero
records counter — not in `failed`.  The run starts from the freshly created
job, exactly as the import endpoint dispatches it. -/
theorem import_zero_records_completes {β : Type} (persist : List β → ℤ)
    (reg : Registry) (jobId jobType : String) (md : List (String × String))
    (now now2 : ℚ) :
    ∃ j, lookupJob (importSpreadsheetAsync jobId (Except.ok ([] : List β))
          persist (createJob reg jobId jobType md now).2 now2) jobId = some j ∧
      j.status = JobStatus.completed ∧ j.progress = 100 ∧
      j.records_fetched = 0 ∧ j.status ≠ JobStatus.failed := by
  have h0 := lookupJob_after_create reg jobId jobType md now
  have h1 := lookupJob_after_update (some JobStatus.in_progress) (some 10)
    none none now2 h0
  have h2 := lookupJob_after_update none (some 50) none none now2 h1
  have h3 := lookupJob_after_update (some JobStatus.completed) (some 100) none
    (some "No valid records found in file") now2 h2
  refine ⟨_, h3, applyUpdate_status _ _ _ _ _ _, ?_, ?_, ?_⟩
  · rw [applyUpdate_progress]
    norm_num [clampProgress]
  · rw [applyUpdate_records_none, applyUpdate_records_none,
      applyUpdate_records_none]
    rfl
  · rw [applyUpdate_status]
    simp

/-! ### Claim C10 -/

theorem filterMap_middle_none {α β : Type} (f : α → Option β) (l1 l2 : List α)
    (a : α) (h : f a = none) :
    (l1 ++ a :: l2).filterMap f = (l1 ++ l2).filterMap f := by
  rw [List.filterMap_append, List.filterMap_append]
  congr 1
  rw [List.filterMap_cons, h]

theorem importCsvRow_zero_activity (genId : String → String → String)
    (parseDate? : Cell → Option ℤ) (today : ℤ) (pyFloat? : String → Option ℚ)
    (amazonFmt : Bool) (row : Row) (h : zeroActivity pyFloat? row = true) :
    importCsvRow genId parseDate? today pyFloat? amazonFmt row = none := by
  unfold importCsvRow
  cases csvRowIdentity genId parseDate? today amazonFmt row with
  | none => rfl
  | some kd =>
      obtain ⟨kid, d⟩ := kd
      exact if_pos h

theorem importExcelRow_zero_activity (genId : String → String → String)
    (parseDate? : Cell → Option ℤ) (today : ℤ) (pyFloat? : String → Option ℚ)
    (amazonFmt : Bool) (row : Row) (h : zeroActivity pyFloat? row = true) :
    importExcelRow genId parseDate? today pyFloat? amazonFmt row = none := by
  unfold importExcelRow
  cases excelRowIdentity genId parseDate? today amazonFmt row with
  | none => rfl
  | some kd =>
      obtain ⟨kid, d⟩ := kd
      exact if_pos h

/-- C10: a row whose impressions, clicks, spend, and sales all parse to zero
is silently dropped by both `import_csv` and `import_excel`: the record list
returned on rows containing it equals the one returned without it, so such a
row never reaches the returned list (nor, therefore,
`dao.upsert_performance`) — whatever its other fields hold, in particular a
non-zero orders cell. -/
theorem zero_activity_row_dropped (genId : String → String → String)
    (parseDate? : Cell → Option ℤ) (today : ℤ) (pyFloat? : String → Option ℚ)
    (headers : List String) (headerCells : List Cell)
    (rows1 rows2 : List (List Cell)) (cells : List Cell)
    (hcsv : zeroActivity pyFloat?
      ((headers.map normalizeCsvHeader).zip cells) = true)
    (hxl : zeroActivity pyFloat?
      ((headerCells.map normalizeExcelHeader).zip cells) = true) :
    importCsv genId parseDate? today pyFloat? headers (rows1 ++ cells :: rows2)
        = importCsv genId parseDate? today pyFloat? headers (rows1 ++ rows2) ∧
      importExcel genId parseDate? today pyFloat? headerCells
          (rows1 ++ cells :: rows2)
        = importExcel genId parseDate? today pyFloat? headerCells
          (rows1 ++ rows2) := by
  constructor
  · simp only [importCsv]
    exact filterMap_middle_none _ rows1 rows2 cells
      (importCsvRow_zero_activity genId parseDate? today pyFloat? _ _ hcsv)
  · simp only [importExcel]
    exact filterMap_middle_none _ rows1 rows2 cells
      (importExcelRow_zero_activity genId parseDate? today pyFloat? _ _ hxl)

/-- Witness for `zero_activity_row_dropped`: a standard-format row carrying a
keyword id, a date, no activity metrics (all parse to zero) and orders 7 is
dropped by both import paths. -/
theorem zero_activity_row_dropped_witness :
    importCsv (fun a b => a ++ "_" ++ b) (fun _ => some 0) 0 (fun _ => none)
        ["keyword_id", "date", "orders"]
        [[Cell.str "k1", Cell.str "2025-01-01", Cell.num 7]]
        = importCsv (fun a b => a ++ "_" ++ b) (fun _ => some 0) 0
          (fun _ => none) ["keyword_id", "date", "orders"] [] ∧
      importExcel (fun a b => a ++ "_" ++ b) (fun _ => some 0) 0 (fun _ => none)
          [Cell.str "keyword_id", Cell.str "date", Cell.str "orders"]
          [[Cell.str "k1", Cell.str "2025-01-01", Cell.num 7]]
        = importExcel (fun a b => a ++ "_" ++ b) (fun _ => some 0) 0
          (fun _ => none)
          [Cell.str "keyword_id", Cell.str "date", Cell.str "orders"] [] :=
  zero_activity_row_dropped (fun a b => a ++ "_" ++ b) (fun _ => some 0) 0
    (fun _ => none) ["keyword_id", "date", "orders"]
    [Cell.str "keyword_id", Cell.str "date", Cell.str "orders"]
    [] [] [Cell.str "k1", Cell.str "2025-01-01", Cell.num 7]
    (by decide) (by decide)

end AdsOpt
